import Mathlib

/-!
Shallow embedding of the popquiz backend core (session-buffered audio
ingestion, rolling-summary scheduling, context assembly) and proofs of the
spec claims about it.

Conventions of the embedding:
* Python `float` timestamps are modelled as exact rationals (`ℚ`).
* Byte strings are modelled as `List Nat` (only length and identity of the
  payload matter to the code under study).
* Python dictionaries (`self.buffers`, `self._last_summary_ts`) are modelled
  as association lists with `getEntry`/`setEntry`.
* The external Gemini calls are modelled as oracle functions passed in as
  parameters; `none` models the call raising an exception.
* The sequential, single-consumer discipline of the code (one worker loop,
  per-session locks) makes each operation a pure state transition; the
  fast-path check and the under-lock re-check of the scheduler are both kept
  in the embedding, mirroring the source line by line.
-/

set_option autoImplicit false

namespace PopQuiz

/-- Association-list lookup, modelling Python `dict.get`. -/
def getEntry {α β : Type} [DecidableEq α] : List (α × β) → α → Option β
  | [], _ => none
  | (k', v') :: rest, k => if k = k' then some v' else getEntry rest k

/-- Association-list update/insert, modelling Python `dict[k] = v`. -/
def setEntry {α β : Type} [DecidableEq α] : List (α × β) → α → β → List (α × β)
  | [], k, v => [(k, v)]
  | (k', v') :: rest, k, v =>
      if k = k' then (k, v) :: rest else (k', v') :: setEntry rest k v

/-! ## Data model (database.py) -/

/-- `TranscriptRecord` from `services/database.py`. -/
structure TranscriptRecord where
  id : Nat
  session_id : String
  start_time : ℚ
  end_time : ℚ
  text : String
  created_at : ℚ
  deriving DecidableEq, Repr

/-- `SummaryRecord` from `services/database.py`. -/
structure SummaryRecord where
  id : Nat
  session_id : String
  start_time : ℚ
  end_time : ℚ
  summary_text : String
  created_at : ℚ
  deriving DecidableEq, Repr

/-- The relational store owned by `LectureRepository`: the rows of the
`transcripts` and `summaries` tables, plus the autoincrement counters. -/
structure Store where
  transcripts : List TranscriptRecord
  summaries : List SummaryRecord
  nextTranscriptId : Nat
  nextSummaryId : Nat
  deriving DecidableEq, Repr

def Store.empty : Store := ⟨[], [], 1, 1⟩

/-- Comparison used by every `ORDER BY start_time ASC` in the repository. -/
def byStartT (a b : TranscriptRecord) : Prop := a.start_time ≤ b.start_time

def byStartS (a b : SummaryRecord) : Prop := a.start_time ≤ b.start_time

instance : DecidableRel byStartT := fun a b =>
  inferInstanceAs (Decidable (a.start_time ≤ b.start_time))

instance : DecidableRel byStartS := fun a b =>
  inferInstanceAs (Decidable (a.start_time ≤ b.start_time))

instance : IsTotal TranscriptRecord byStartT := ⟨fun _ _ => le_total _ _⟩

instance : IsTrans TranscriptRecord byStartT := ⟨fun _ _ _ => le_trans⟩

instance : IsTotal SummaryRecord byStartS := ⟨fun _ _ => le_total _ _⟩

instance : IsTrans SummaryRecord byStartS := ⟨fun _ _ _ => le_trans⟩

/-- `LectureRepository.fetch_transcripts_in_window`: rows of the session with
`end_time >= start_time_param AND start_time <= end_time_param`,
`ORDER BY start_time ASC`. -/
def fetch_transcripts_in_window (st : Store) (session_id : String)
    (start_time end_time : ℚ) : List TranscriptRecord :=
  List.insertionSort byStartT
    (st.transcripts.filter fun r =>
      decide (r.session_id = session_id ∧ start_time ≤ r.end_time ∧ r.start_time ≤ end_time))

/-- `LectureRepository.fetch_transcripts_since`: despite the parameter name
`min_start_time`, the SQL filters on `end_time >= ?`; `ORDER BY start_time ASC`. -/
def fetch_transcripts_since (st : Store) (session_id : String)
    (min_start_time : ℚ) : List TranscriptRecord :=
  List.insertionSort byStartT
    (st.transcripts.filter fun r =>
      decide (r.session_id = session_id ∧ min_start_time ≤ r.end_time))

/-- `LectureRepository.fetch_all_summaries`: all rows of the session,
`ORDER BY start_time ASC`. -/
def fetch_all_summaries (st : Store) (session_id : String) : List SummaryRecord :=
  List.insertionSort byStartS
    (st.summaries.filter fun r => decide (r.session_id = session_id))

/-- `LectureRepository.insert_transcript`. `created_at = time.time()` is the
supplied `now`. -/
def insert_transcript (st : Store) (session_id : String)
    (start_time end_time : ℚ) (text : String) (now : ℚ) :
    Store × TranscriptRecord :=
  let record : TranscriptRecord :=
    ⟨st.nextTranscriptId, session_id, start_time, end_time, text, now⟩
  (⟨st.transcripts ++ [record], st.summaries, st.nextTranscriptId + 1, st.nextSummaryId⟩,
   record)

/-- `LectureRepository.insert_summary`. -/
def insert_summary (st : Store) (session_id : String)
    (start_time end_time : ℚ) (summary_text : String) (now : ℚ) :
    Store × SummaryRecord :=
  let record : SummaryRecord :=
    ⟨st.nextSummaryId, session_id, start_time, end_time, summary_text, now⟩
  (⟨st.transcripts, st.summaries ++ [record], st.nextTranscriptId, st.nextSummaryId + 1⟩,
   record)

/-! ## Transcription service (transcription.py) -/

/-- `MAX_INLINE_BYTES = 20 * 1024 * 1024` from `services/transcription.py`. -/
def MAX_INLINE_BYTES : Nat := 20 * 1024 * 1024

/-- The distinct failure modes of `TranscriptionService.transcribe`:
the two `ValueError`s raised up front, and the `RuntimeError` raised when
Gemini returns no usable text. -/
inductive TranscribeError where
  | EmptyPayload
  | PayloadTooLarge
  | EmptyResult
  deriving DecidableEq, Repr

/-- Python `str.strip()` with no argument: drop leading and trailing
whitespace.  Modelled over the character list (extensionally Lean's
`String.trim` on ASCII input, but structurally recursive, so it reduces). -/
def pyStrip (s : String) : String :=
  ⟨((s.data.dropWhile Char.isWhitespace).reverse.dropWhile Char.isWhitespace).reverse⟩

/-- `TranscriptionService.transcribe` composed with `_transcribe_blocking`.
`capability` models `response.text` from the external call (`none` models a
`None` response field, handled by `response.text or ""`). The input checks
precede any use of `capability`, mirroring the source, and the result is
stripped before the usability check. -/
def transcribe (capability : Option String) (audio_bytes : List Nat) :
    Except TranscribeError String :=
  if audio_bytes = [] then .error .EmptyPayload
  else if MAX_INLINE_BYTES < audio_bytes.length then .error .PayloadTooLarge
  else
    let text := pyStrip (capability.getD "")
    if text = "" then .error .EmptyResult else .ok text

instance {ε α : Type} [DecidableEq ε] [DecidableEq α] : DecidableEq (Except ε α) :=
  fun a b =>
    match a, b with
    | .error e, .error e' =>
        if h : e = e' then .isTrue (by rw [h])
        else .isFalse (by intro hh; injection hh; contradiction)
    | .error _, .ok _ => .isFalse (by intro hh; exact Except.noConfusion hh)
    | .ok _, .error _ => .isFalse (by intro hh; exact Except.noConfusion hh)
    | .ok v, .ok v' =>
        if h : v = v' then .isTrue (by rw [h])
        else .isFalse (by intro hh; injection hh; contradiction)

/-! ## Context assembler (context.py) -/

/-- `ContextPackage` from `services/context.py`. -/
structure ContextPackage where
  session_id : String
  global_summaries : List SummaryRecord
  recent_transcripts : List TranscriptRecord
  deriving DecidableEq, Repr

/-- `ContextPackage.has_content`: `bool(self.global_summaries or self.recent_transcripts)`. -/
def ContextPackage.has_content (p : ContextPackage) : Bool :=
  !p.global_summaries.isEmpty || !p.recent_transcripts.isEmpty

/-- Default of `ContextBuilder.__init__`'s `default_recent_minutes`. -/
def defaultRecentMinutes : Nat := 10

/-- `ContextBuilder.build`. `recent_minutes` is `int | None`;
`window_minutes = recent_minutes or self.default_recent_minutes` falls back to
the default both when the argument is `None` and when it is `0` (falsy).
A pure read of the store: no write is even expressible here. -/
def build (default_recent_minutes : Nat) (st : Store) (session_id : String)
    (recent_minutes : Option Nat) (now : ℚ) : ContextPackage :=
  let window_minutes :=
    match recent_minutes with
    | none => default_recent_minutes
    | some m => if m = 0 then default_recent_minutes else m
  let cutoff : ℚ := now - (window_minutes * 60 : ℚ)
  let summaries := fetch_all_summaries st session_id
  let recent := fetch_transcripts_since st session_id cutoff
  ⟨session_id, summaries, recent⟩

/-! ## Rolling summary scheduler (summarization.py) -/

/-- Constructor arguments of `SummaryScheduler` (defaults 300 and 5). -/
structure SchedConfig where
  window_seconds : ℚ
  min_chunks : Nat
  deriving DecidableEq, Repr

/-- The in-memory `self._last_summary_ts` map of `SummaryScheduler`.  The
per-session `asyncio.Lock` map needs no counterpart: in this sequential
embedding every call holds the lock trivially. -/
structure SchedState where
  last_summary_ts : List (String × ℚ)
  deriving DecidableEq, Repr

def SchedState.empty : SchedState := ⟨[]⟩

/-- `SummarizationService.summarize`: raises `ValueError` on an empty list,
otherwise performs the external Gemini call; `oracle` models that call and
`none` models it raising. -/
def summarize (oracle : List TranscriptRecord → Option String)
    (transcripts : List TranscriptRecord) : Option String :=
  if transcripts = [] then none else oracle transcripts

/-- Outcome of one `consider_transcript` call: the new scheduler state and
store, plus logs of the repository fetches performed and of the transcript
lists handed to `summarize` (used to count external calls). -/
structure SchedResult where
  sched : SchedState
  store : Store
  fetches : List (List TranscriptRecord)
  summarizeCalls : List (List TranscriptRecord)
  deriving DecidableEq, Repr

/-- `SummaryScheduler.consider_transcript`.  The source performs a fast-path
check without the lock, then re-checks under the lock; both checks are kept
here.  `now` stands for `time.time()` inside `insert_summary`.  When
`summarize` raises (oracle `none`), the exception propagates with no insert
and no timestamp update. -/
def consider_transcript (cfg : SchedConfig)
    (oracle : List TranscriptRecord → Option String)
    (sched : SchedState) (store : Store) (record : TranscriptRecord)
    (now : ℚ) : SchedResult :=
  let session_id := record.session_id
  let fastSkip : Bool :=
    match getEntry sched.last_summary_ts session_id with
    | some last_run => decide (record.end_time - last_run < cfg.window_seconds)
    | none => false
  if fastSkip then ⟨sched, store, [], []⟩
  else
    let recheckSkip : Bool :=
      match getEntry sched.last_summary_ts session_id with
      | some last_run => decide (record.end_time - last_run < cfg.window_seconds)
      | none => false
    if recheckSkip then ⟨sched, store, [], []⟩
    else
      let window_start := record.end_time - cfg.window_seconds
      let transcripts :=
        fetch_transcripts_in_window store session_id window_start record.end_time
      if transcripts.length < cfg.min_chunks then ⟨sched, store, [transcripts], []⟩
      else
        match transcripts with
        | [] =>
            ⟨sched, store, [[]], [[]]⟩
        | first :: rest =>
          match summarize oracle (first :: rest) with
          | none => ⟨sched, store, [first :: rest], [first :: rest]⟩
          | some summary_text =>
              let lastRec := (first :: rest).getLast (List.cons_ne_nil _ _)
              let store1 :=
                (insert_summary store session_id first.start_time lastRec.end_time
                  summary_text now).1
              ⟨⟨setEntry sched.last_summary_ts session_id record.end_time⟩,
               store1, [first :: rest], [first :: rest]⟩

/-- The repository fetch performed by `consider_transcript` once the guard
passes: all of the session's transcripts overlapping the trailing window
`[record.end_time - window_seconds, record.end_time]`, oldest first. -/
def windowFetch (cfg : SchedConfig) (store : Store)
    (record : TranscriptRecord) : List TranscriptRecord :=
  fetch_transcripts_in_window store record.session_id
    (record.end_time - cfg.window_seconds) record.end_time

/-! ## Audio processor (audio_processor.py) -/

/-- `BYTES_PER_SAMPLE = 2` (16-bit audio). -/
def BYTES_PER_SAMPLE : Nat := 2

/-- `AudioChunk` dataclass. -/
structure AudioChunk where
  session_id : String
  payload : List Nat
  received_at : ℚ
  deriving DecidableEq, Repr

/-- `SessionBuffer` dataclass. -/
structure SessionBuffer where
  data : List Nat
  started_at : ℚ
  deriving DecidableEq, Repr

/-- Constructor arguments of `AudioProcessor` that determine the flush
threshold (defaults 16000 and 60). -/
structure ProcConfig where
  sample_rate_hz : Nat
  target_window_seconds : Nat
  deriving DecidableEq, Repr

/-- `self.threshold_bytes = (sample_rate_hz * BYTES_PER_SAMPLE) * target_window_seconds`. -/
def ProcConfig.threshold_bytes (cfg : ProcConfig) : Nat :=
  cfg.sample_rate_hz * BYTES_PER_SAMPLE * cfg.target_window_seconds

/-- Mutable state of `AudioProcessor` together with its view of the store and
logs of the outgoing calls: `transcribeCalls` records every payload handed to
`TranscriptionService.transcribe`, `schedulerCalls` every record handed to
`SummaryScheduler.consider_transcript`. -/
structure ProcState where
  buffers : List (String × SessionBuffer)
  store : Store
  transcript_history : List (String × TranscriptRecord)
  transcribeCalls : List (List Nat)
  schedulerCalls : List TranscriptRecord
  deriving DecidableEq, Repr

def ProcState.empty : ProcState := ⟨[], Store.empty, [], [], []⟩

/-- Python's `end_time or time.time()` in `_flush_buffer`: falls back to the
clock both when `end_time` is `None` and when it is the falsy `0.0`. -/
def finalTime (end_time : Option ℚ) (now : ℚ) : ℚ :=
  match end_time with
  | some t => if t = 0 then now else t
  | none => now

/-- `AudioProcessor._flush_buffer`.  `tr` models
`self.transcription_service.transcribe` (`none` = raised exception, which the
source catches and swallows); `end_time` is the keyword argument and `now`
stands for `time.time()`. -/
def flush_buffer (tr : List Nat → Option String) (st : ProcState)
    (session_id : String) (buffer : SessionBuffer) (end_time : Option ℚ)
    (now : ℚ) : ProcState :=
  if buffer.data = [] then st
  else
    let start_time := buffer.started_at
    let final_time : ℚ := finalTime end_time now
    let audio_bytes := buffer.data
    let st1 : ProcState :=
      { st with
          buffers := setEntry st.buffers session_id ⟨[], final_time⟩,
          transcribeCalls := st.transcribeCalls ++ [audio_bytes] }
    match tr audio_bytes with
    | none => st1
    | some transcript_text =>
        let inserted :=
          insert_transcript st1.store session_id start_time final_time
            transcript_text now
        { st1 with
            store := inserted.1,
            transcript_history := st1.transcript_history ++ [(session_id, inserted.2)],
            schedulerCalls := st1.schedulerCalls ++ [inserted.2] }

/-- `AudioProcessor.force_flush`: no-op when the session has no buffer or the
buffer holds no data. -/
def force_flush (tr : List Nat → Option String) (st : ProcState)
    (session_id : String) (now : ℚ) : ProcState :=
  match getEntry st.buffers session_id with
  | none => st
  | some buffer =>
      if buffer.data = [] then st
      else flush_buffer tr st session_id buffer none now

/-- `AudioProcessor._handle_chunk`.  `setdefault` creates a fresh buffer whose
`started_at` defaults to the clock; since a fresh buffer is empty, that stamp
is immediately overwritten with the chunk's receipt time. -/
def handle_chunk (cfg : ProcConfig) (tr : List Nat → Option String)
    (st : ProcState) (chunk : AudioChunk) (now : ℚ) : ProcState :=
  let buffer0 := (getEntry st.buffers chunk.session_id).getD ⟨[], now⟩
  let buffer1 :=
    if buffer0.data = [] then { buffer0 with started_at := chunk.received_at }
    else buffer0
  let buffer2 := { buffer1 with data := buffer1.data ++ chunk.payload }
  let st1 := { st with buffers := setEntry st.buffers chunk.session_id buffer2 }
  if cfg.threshold_bytes ≤ buffer2.data.length then
    flush_buffer tr st1 chunk.session_id buffer2 (some chunk.received_at) now
  else st1

/-- One unit of work reaching the processor: a dequeued chunk or a
`force_flush` request, each stamped with the wall clock at processing time. -/
inductive Event where
  | chunk (c : AudioChunk) (now : ℚ)
  | flush (session_id : String) (now : ℚ)
  deriving DecidableEq, Repr

/-- The externally visible timestamp of an event: a chunk's receipt time, a
flush's wall clock. -/
def Event.time : Event → ℚ
  | .chunk c _ => c.received_at
  | .flush _ now => now

/-- Wall-clock sanity: a chunk is processed at or after its receipt time. -/
def Event.wellTimed : Event → Prop
  | .chunk c now => c.received_at ≤ now
  | .flush _ _ => True

def step (cfg : ProcConfig) (tr : List Nat → Option String)
    (st : ProcState) : Event → ProcState
  | .chunk c now => handle_chunk cfg tr st c now
  | .flush sid now => force_flush tr st sid now

/-- The consumption loop: process a finite trace of events in order. -/
def run (cfg : ProcConfig) (tr : List Nat → Option String)
    (st : ProcState) (events : List Event) : ProcState :=
  events.foldl (step cfg tr) st

/-- The bytes held for a session right after a chunk is appended: the prior
buffer contents (empty when no buffer exists yet) followed by the chunk's
payload. -/
def accumulated (st : ProcState) (chunk : AudioChunk) : List Nat :=
  ((getEntry st.buffers chunk.session_id).map SessionBuffer.data).getD []
    ++ chunk.payload

/-! ## Helper lemmas about the repository fetches -/

/-- All persisted transcript records satisfy the `end_time >= start_time`
invariant. -/
def RecordsOrdered (st : ProcState) : Prop :=
  ∀ r ∈ st.store.transcripts, r.start_time ≤ r.end_time

/-- Every nonempty session buffer in the state was stamped no later than
`t`: its `started_at` (the receipt time of the first byte currently held)
does not exceed `t`. -/
def BufBound (st : ProcState) (t : ℚ) : Prop :=
  ∀ sid b, getEntry st.buffers sid = some b → b.data ≠ [] → b.started_at ≤ t

instance : DecidablePred Event.wellTimed := fun e =>
  match e with
  | .chunk c now => inferInstanceAs (Decidable (c.received_at ≤ now))
  | .flush _ _ => inferInstanceAs (Decidable True)

theorem getEntry_setEntry_self {α β : Type} [DecidableEq α]
    (l : List (α × β)) (k : α) (v : β) : getEntry (setEntry l k v) k = some v := by
  induction l with
  | nil => simp [getEntry, setEntry]
  | cons hd tl ih =>
      by_cases h : k = hd.1
      · simp [setEntry, getEntry, h]
      · simp [setEntry, getEntry, h, ih]

theorem getEntry_setEntry_ne {α β : Type} [DecidableEq α]
    (l : List (α × β)) (k k' : α) (v : β) (h : k' ≠ k) :
    getEntry (setEntry l k v) k' = getEntry l k' := by
  induction l with
  | nil => simp [getEntry, setEntry, h]
  | cons hd tl ih =>
      by_cases hk : k = hd.1
      · subst hk
        simp [setEntry, getEntry, h]
      · by_cases hk' : k' = hd.1
        · simp [setEntry, getEntry, hk, hk']
        · simp [setEntry, getEntry, hk, hk', ih]


theorem mem_fetch_transcripts_in_window (st : Store) (sid : String) (a b : ℚ)
    (t : TranscriptRecord) :
    t ∈ fetch_transcripts_in_window st sid a b ↔
      t ∈ st.transcripts ∧ t.session_id = sid ∧ a ≤ t.end_time ∧ t.start_time ≤ b := by
  unfold fetch_transcripts_in_window
  rw [(List.perm_insertionSort byStartT _).mem_iff, List.mem_filter]
  simp

theorem mem_fetch_transcripts_since (st : Store) (sid : String) (a : ℚ)
    (t : TranscriptRecord) :
    t ∈ fetch_transcripts_since st sid a ↔
      t ∈ st.transcripts ∧ t.session_id = sid ∧ a ≤ t.end_time := by
  unfold fetch_transcripts_since
  rw [(List.perm_insertionSort byStartT _).mem_iff, List.mem_filter]
  simp

theorem mem_fetch_all_summaries (st : Store) (sid : String) (s : SummaryRecord) :
    s ∈ fetch_all_summaries st sid ↔ s ∈ st.summaries ∧ s.session_id = sid := by
  unfold fetch_all_summaries
  rw [(List.perm_insertionSort byStartS _).mem_iff, List.mem_filter]
  simp

theorem sorted_fetch_transcripts_in_window (st : Store) (sid : String) (a b : ℚ) :
    List.Sorted byStartT (fetch_transcripts_in_window st sid a b) :=
  List.sorted_insertionSort byStartT _

theorem sorted_fetch_transcripts_since (st : Store) (sid : String) (a : ℚ) :
    List.Sorted byStartT (fetch_transcripts_since st sid a) :=
  List.sorted_insertionSort byStartT _

theorem sorted_fetch_all_summaries (st : Store) (sid : String) :
    List.Sorted byStartS (fetch_all_summaries st sid) :=
  List.sorted_insertionSort byStartS _

/-! ## C8: transcription error taxonomy -/

/-- C8: `Transcribe` fails with `EmptyPayload` iff the payload is empty, with
`PayloadTooLarge` iff it exceeds the fixed 20 MB ceiling — both decided
before the external capability is consulted, so in those cases the outcome is
independent of the capability — and, for payloads passing both checks, with
`EmptyResult` iff the capability's response text strips to nothing. -/
theorem transcribe_error_taxonomy (capability : Option String)
    (audio_bytes : List Nat) :
    (transcribe capability audio_bytes = .error .EmptyPayload ↔ audio_bytes = []) ∧
    (transcribe capability audio_bytes = .error .PayloadTooLarge ↔
      MAX_INLINE_BYTES < audio_bytes.length) ∧
    (audio_bytes ≠ [] → audio_bytes.length ≤ MAX_INLINE_BYTES →
      (transcribe capability audio_bytes = .error .EmptyResult ↔
        pyStrip (capability.getD "") = "")) ∧
    (∀ capability', audio_bytes = [] ∨ MAX_INLINE_BYTES < audio_bytes.length →
      transcribe capability audio_bytes = transcribe capability' audio_bytes) := by
  unfold transcribe
  by_cases h1 : audio_bytes = []
  · subst h1
    simp [MAX_INLINE_BYTES]
  · by_cases h2 : MAX_INLINE_BYTES < audio_bytes.length
    · simp [h1, h2, Nat.not_le.mpr h2]
    · by_cases h3 : pyStrip (capability.getD "") = ""
      · simp [h1, h2, h3]
      · simp [h1, h2, h3]

/-- Witness for `transcribe_error_taxonomy`: a one-byte payload whose
capability response is pure whitespace yields the `EmptyResult` failure. -/
theorem transcribe_error_taxonomy_witness :
    transcribe (some " ") [1] = .error .EmptyResult :=
  ((transcribe_error_taxonomy (some " ") [1]).2.2.1 (by decide) (by decide)).mpr
    (by decide)

/-! ## C10: `build` with `recent_minutes = 0` -/

/-- C10: passing `recent_minutes = 0` to `ContextBuilder.build` does not give
an empty recent window: `0` is falsy in `recent_minutes or
self.default_recent_minutes`, so the call behaves exactly like one with the
argument absent, and the constructor default for the fallback is 10 minutes. -/
theorem build_zero_uses_default_window (d : Nat) (st : Store)
    (session_id : String) (now : ℚ) :
    build d st session_id (some 0) now = build d st session_id none now ∧
    defaultRecentMinutes = 10 :=
  ⟨rfl, rfl⟩

/-! ## C6: force-flush on an empty or absent buffer -/

/-- C6: `force_flush` for a session whose buffer is absent or empty returns
the state unchanged: no Transcribe call, no store write, no state change, so
it is safe to call at any time, including before any audio has arrived. -/
theorem force_flush_empty_noop (tr : List Nat → Option String) (st : ProcState)
    (session_id : String) (now : ℚ)
    (h : getEntry st.buffers session_id = none ∨
      ∃ b, getEntry st.buffers session_id = some b ∧ b.data = []) :
    force_flush tr st session_id now = st := by
  unfold force_flush
  rcases h with h | ⟨b, hb, hdata⟩
  · rw [h]
  · rw [hb]
    simp [hdata]

/-- Witness for `force_flush_empty_noop`: force-flushing a session that never
received audio leaves the initial state untouched. -/
theorem force_flush_empty_noop_witness :
    force_flush (fun _ => some "text") ProcState.empty "room1" 5 =
      ProcState.empty :=
  force_flush_empty_noop _ _ _ _ (Or.inl rfl)

/-! ## C5: transcription failure during a flush -/

/-- C5: when the Transcribe call inside a flush fails, the flush (a total
function here, so the failure cannot escape `_flush_buffer`) leaves the
session's buffer cleared and restamped, inserts no transcript record, never
reaches the summary scheduler, and records exactly the one Transcribe attempt
over the drained bytes — which are thereby discarded, with no retry and no
re-buffering. -/
theorem flush_transcribe_failure_frame (tr : List Nat → Option String)
    (st : ProcState) (session_id : String) (buffer : SessionBuffer)
    (end_time : Option ℚ) (now : ℚ)
    (hne : buffer.data ≠ []) (hfail : tr buffer.data = none) :
    flush_buffer tr st session_id buffer end_time now =
      { st with
          buffers := setEntry st.buffers session_id ⟨[], finalTime end_time now⟩,
          transcribeCalls := st.transcribeCalls ++ [buffer.data] } := by
  simp [flush_buffer, hne, hfail]

/-- Witness for `flush_transcribe_failure_frame` on a one-byte buffer and an
always-failing transcriber. -/
theorem flush_transcribe_failure_frame_witness :
    flush_buffer (fun _ => none) ProcState.empty "s" ⟨[7], 1⟩ none 2 =
      ⟨[("s", ⟨[], 2⟩)], Store.empty, [], [[7]], []⟩ := by
  rw [flush_transcribe_failure_frame (fun _ => none) ProcState.empty "s"
    ⟨[7], 1⟩ none 2 (by decide) rfl]
  rfl

/-! ## C2, C3, C4: the rolling summary scheduler -/

/-- C2: once a summary for the session has been recorded with
`lastSummaryEndTime = T`, a `consider_transcript` call for a record with
`end_time - T < window_seconds` skips on the fast-path check: no repository
fetch, no Summarize call, no summary insert, and no state change.  Repeated
calls within the window of a prior summary therefore add no summary record. -/
theorem consider_transcript_within_window_skips (cfg : SchedConfig)
    (oracle : List TranscriptRecord → Option String) (sched : SchedState)
    (store : Store) (record : TranscriptRecord) (now T : ℚ)
    (hlast : getEntry sched.last_summary_ts record.session_id = some T)
    (hwin : record.end_time - T < cfg.window_seconds) :
    consider_transcript cfg oracle sched store record now =
      ⟨sched, store, [], []⟩ := by
  simp [consider_transcript, hlast, hwin]

/-- Witness for `consider_transcript_within_window_skips`: a prior summary at
time 3, window 5 seconds, and a record ending at 4. -/
theorem consider_transcript_within_window_skips_witness :
    consider_transcript ⟨5, 2⟩ (fun _ => some "sum") ⟨[("room1", 3)]⟩
        ⟨[], [], 1, 1⟩ ⟨9, "room1", 3, 4, "t", 4⟩ 4 =
      ⟨⟨[("room1", 3)]⟩, ⟨[], [], 1, 1⟩, [], []⟩ :=
  consider_transcript_within_window_skips _ _ _ _ _ _ 3 (by decide)
    (by with_unfolding_all decide)

/-- C4: when the guard passes but the window fetch returns fewer than
`min_chunks` transcripts, `consider_transcript` abandons with the scheduler
state and the store unchanged and no Summarize call (the fetch is the only
side effect logged), so a later call for the same session starts from
identical state and can still summarize once enough chunks exist. -/
theorem consider_transcript_too_few_chunks_noop (cfg : SchedConfig)
    (oracle : List TranscriptRecord → Option String) (sched : SchedState)
    (store : Store) (record : TranscriptRecord) (now : ℚ)
    (hguard : ∀ T, getEntry sched.last_summary_ts record.session_id = some T →
      cfg.window_seconds ≤ record.end_time - T)
    (hfew : (windowFetch cfg store record).length < cfg.min_chunks) :
    consider_transcript cfg oracle sched store record now =
      ⟨sched, store, [windowFetch cfg store record], []⟩ := by
  have hfew' : (fetch_transcripts_in_window store record.session_id
      (record.end_time - cfg.window_seconds) record.end_time).length <
        cfg.min_chunks := hfew
  cases hE : getEntry sched.last_summary_ts record.session_id with
  | none => simp [consider_transcript, hE, hfew', windowFetch]
  | some T =>
      have hT := hguard T hE
      simp [consider_transcript, hE, not_lt.mpr hT, hfew', windowFetch]

/-- Witness for `consider_transcript_too_few_chunks_noop`: `min_chunks = 2`
with a single stored transcript in the window. -/
theorem consider_transcript_too_few_chunks_noop_witness :
    consider_transcript ⟨5, 2⟩ (fun _ => some "sum") ⟨[]⟩
        ⟨[⟨1, "room1", 0, 1, "a", 1⟩], [], 2, 1⟩ ⟨1, "room1", 0, 1, "a", 1⟩ 1 =
      ⟨⟨[]⟩, ⟨[⟨1, "room1", 0, 1, "a", 1⟩], [], 2, 1⟩,
       [[⟨1, "room1", 0, 1, "a", 1⟩]], []⟩ := by
  rw [consider_transcript_too_few_chunks_noop ⟨5, 2⟩ (fun _ => some "sum") ⟨[]⟩
    ⟨[⟨1, "room1", 0, 1, "a", 1⟩], [], 2, 1⟩ ⟨1, "room1", 0, 1, "a", 1⟩ 1
    (by intro T hT; simp [getEntry] at hT) (by with_unfolding_all decide)]
  with_unfolding_all decide

/-- C3: when the guard passes, the window fetch returns at least `min_chunks`
transcripts, and the Summarize call over them succeeds,
`consider_transcript` invokes Summarize exactly once over the fetched,
oldest-first list, inserts exactly one summary record spanning the first
fetched transcript's start to the last fetched transcript's end, and advances
`lastSummaryEndTime` to the considered record's end time; the fetched list
consists precisely of the session's stored transcripts overlapping
`[end_time - window_seconds, end_time]`, sorted by start time. -/
theorem consider_transcript_summarizes_window (cfg : SchedConfig)
    (oracle : List TranscriptRecord → Option String) (sched : SchedState)
    (store : Store) (record : TranscriptRecord) (now : ℚ) (text : String)
    (first : TranscriptRecord) (rest : List TranscriptRecord)
    (hguard : ∀ T, getEntry sched.last_summary_ts record.session_id = some T →
      cfg.window_seconds ≤ record.end_time - T)
    (hF : windowFetch cfg store record = first :: rest)
    (henough : cfg.min_chunks ≤ (first :: rest).length)
    (hsumm : oracle (first :: rest) = some text) :
    consider_transcript cfg oracle sched store record now =
      ⟨⟨setEntry sched.last_summary_ts record.session_id record.end_time⟩,
       (insert_summary store record.session_id first.start_time
         ((first :: rest).getLast (List.cons_ne_nil first rest)).end_time
         text now).1,
       [first :: rest], [first :: rest]⟩ ∧
    List.Sorted byStartT (first :: rest) ∧
    (∀ t, t ∈ first :: rest ↔
      t ∈ store.transcripts ∧ t.session_id = record.session_id ∧
        record.end_time - cfg.window_seconds ≤ t.end_time ∧
        t.start_time ≤ record.end_time) := by
  have hF' : fetch_transcripts_in_window store record.session_id
      (record.end_time - cfg.window_seconds) record.end_time = first :: rest := hF
  have henough' : cfg.min_chunks ≤ rest.length + 1 := by simpa using henough
  refine ⟨?_, ?_, ?_⟩
  · cases hE : getEntry sched.last_summary_ts record.session_id with
    | none =>
        simp [consider_transcript, hE, hF', not_lt.mpr henough', summarize, hsumm]
    | some T =>
        have hT := hguard T hE
        simp [consider_transcript, hE, not_lt.mpr hT, hF', not_lt.mpr henough',
          summarize, hsumm]
  · exact hF' ▸ sorted_fetch_transcripts_in_window store record.session_id _ _
  · intro t
    rw [← hF']
    exact mem_fetch_transcripts_in_window store record.session_id _ _ t

/-- Witness for `consider_transcript_summarizes_window`: the spec scenario
with `window_seconds = 5`, `min_chunks = 2`, transcripts spanning `[0,1]` and
`[2,3]`, considering the second — exactly one summary spanning `[0,3]` is
inserted. -/
theorem consider_transcript_summarizes_window_witness :
    (consider_transcript ⟨5, 2⟩ (fun _ => some "sum") ⟨[]⟩
        ⟨[⟨1, "room1", 0, 1, "a", 1⟩, ⟨2, "room1", 2, 3, "b", 3⟩], [], 3, 1⟩
        ⟨2, "room1", 2, 3, "b", 3⟩ 100).store.summaries =
      [⟨1, "room1", 0, 3, "sum", 100⟩] ∧
    (consider_transcript ⟨5, 2⟩ (fun _ => some "sum") ⟨[]⟩
        ⟨[⟨1, "room1", 0, 1, "a", 1⟩, ⟨2, "room1", 2, 3, "b", 3⟩], [], 3, 1⟩
        ⟨2, "room1", 2, 3, "b", 3⟩ 100).sched.last_summary_ts =
      [("room1", 3)] := by
  rw [(consider_transcript_summarizes_window ⟨5, 2⟩ (fun _ => some "sum") ⟨[]⟩
    ⟨[⟨1, "room1", 0, 1, "a", 1⟩, ⟨2, "room1", 2, 3, "b", 3⟩], [], 3, 1⟩
    ⟨2, "room1", 2, 3, "b", 3⟩ 100 "sum" ⟨1, "room1", 0, 1, "a", 1⟩
    [⟨2, "room1", 2, 3, "b", 3⟩]
    (by intro T hT; simp [getEntry] at hT) (by with_unfolding_all decide)
    (by decide) rfl).1]
  exact ⟨rfl, rfl⟩

/-! ## C1: threshold crossings and the drained buffer -/

theorem flush_buffer_calls_and_clears (tr : List Nat → Option String)
    (st : ProcState) (session_id : String) (buffer : SessionBuffer)
    (end_time : Option ℚ) (now : ℚ) (hne : buffer.data ≠ []) :
    (flush_buffer tr st session_id buffer end_time now).transcribeCalls
        = st.transcribeCalls ++ [buffer.data] ∧
    getEntry (flush_buffer tr st session_id buffer end_time now).buffers
        session_id = some ⟨[], finalTime end_time now⟩ := by
  cases htr : tr buffer.data <;>
    simp [flush_buffer, hne, htr, getEntry_setEntry_self]

set_option maxRecDepth 10000 in
/-- C1 is false as stated: with a 4-byte threshold (1 Hz sample rate, 2 s
window), a single 5-byte fragment crosses the threshold once and is flushed;
the code drains the entire buffer, so the buffer afterwards holds 0 bytes,
not the `total - threshold = 1` bytes the claim predicts. -/
theorem handle_chunk_residue_counterexample :
    (getEntry (handle_chunk ⟨1, 2⟩ (fun _ => some "t") ProcState.empty
        ⟨"s", [0, 0, 0, 0, 0], 10⟩ 10).buffers "s").map
        (fun b => b.data.length) = some 0 ∧
    ([0, 0, 0, 0, 0] : List Nat).length
        - (⟨1, 2⟩ : ProcConfig).threshold_bytes = 1 ∧
    ¬ ((getEntry (handle_chunk ⟨1, 2⟩ (fun _ => some "t") ProcState.empty
        ⟨"s", [0, 0, 0, 0, 0], 10⟩ 10).buffers "s").map
        (fun b => b.data.length)
      = some (([0, 0, 0, 0, 0] : List Nat).length
          - (⟨1, 2⟩ : ProcConfig).threshold_bytes)) := by
  with_unfolding_all decide

/-- C1 (amended): a chunk that brings the session's accumulated bytes to or
past the threshold triggers exactly one Transcribe call, over the entire
accumulated contents, and leaves the buffer holding 0 bytes (not
`total - threshold`); a chunk that stays below the threshold triggers no
Transcribe call and keeps every accumulated byte buffered; and a force-flush
of a nonempty buffer likewise drains it to empty. -/
theorem threshold_crossing_single_transcribe (cfg : ProcConfig)
    (tr : List Nat → Option String) (st : ProcState) (chunk : AudioChunk)
    (now : ℚ)
    (hth : cfg.threshold_bytes ≤ (accumulated st chunk).length)
    (hne : accumulated st chunk ≠ []) :
    ((handle_chunk cfg tr st chunk now).transcribeCalls
        = st.transcribeCalls ++ [accumulated st chunk] ∧
      (getEntry (handle_chunk cfg tr st chunk now).buffers
          chunk.session_id).map SessionBuffer.data = some []) ∧
    (∀ st' chunk', (accumulated st' chunk').length < cfg.threshold_bytes →
      (handle_chunk cfg tr st' chunk' now).transcribeCalls
          = st'.transcribeCalls ∧
      (getEntry (handle_chunk cfg tr st' chunk' now).buffers
          chunk'.session_id).map SessionBuffer.data
        = some (accumulated st' chunk')) ∧
    (∀ sid b, getEntry st.buffers sid = some b → b.data ≠ [] →
      (getEntry (force_flush tr st sid now).buffers sid).map
          SessionBuffer.data = some []) := by
  refine ⟨?_, ?_, ?_⟩
  · cases hE : getEntry st.buffers chunk.session_id with
    | none =>
        simp only [accumulated, hE, Option.map_none', Option.getD_none,
          List.nil_append] at hth hne
        have h12 := flush_buffer_calls_and_clears tr
          { st with buffers := (setEntry st.buffers chunk.session_id
              ⟨chunk.payload, chunk.received_at⟩) }
          chunk.session_id ⟨chunk.payload, chunk.received_at⟩
          (some chunk.received_at) now hne
        have hacc : accumulated st chunk = chunk.payload := by
          simp [accumulated, hE]
        rw [hacc]
        simp only [handle_chunk, hE]
        simp only [Option.getD_none]
        simp [hth, h12.1, h12.2]
    | some b =>
        by_cases h0 : b.data = []
        · simp only [accumulated, hE, Option.map_some', Option.getD_some, h0,
            List.nil_append] at hth hne
          have h12 := flush_buffer_calls_and_clears tr
            { st with buffers := (setEntry st.buffers chunk.session_id
                ⟨chunk.payload, chunk.received_at⟩) }
            chunk.session_id ⟨chunk.payload, chunk.received_at⟩
            (some chunk.received_at) now hne
          have hacc : accumulated st chunk = chunk.payload := by
            simp [accumulated, hE, h0]
          rw [hacc]
          simp only [handle_chunk, hE]
          simp [h0, hth, h12.1, h12.2]
        · simp only [accumulated, hE, Option.map_some', Option.getD_some]
            at hth hne
          have h12 := flush_buffer_calls_and_clears tr
            { st with buffers := (setEntry st.buffers chunk.session_id
                ⟨b.data ++ chunk.payload, b.started_at⟩) }
            chunk.session_id ⟨b.data ++ chunk.payload, b.started_at⟩
            (some chunk.received_at) now hne
          have hacc : accumulated st chunk = b.data ++ chunk.payload := by
            simp [accumulated, hE]
          have hth' : cfg.threshold_bytes ≤ b.data.length + chunk.payload.length := by
            simpa using hth
          rw [hacc]
          simp only [handle_chunk, hE]
          simp [h0, hth', h12.1, h12.2]
  · intro st' chunk' hlt
    cases hE : getEntry st'.buffers chunk'.session_id with
    | none =>
        simp only [accumulated, hE, Option.map_none', Option.getD_none,
          List.nil_append] at hlt ⊢
        simp [handle_chunk, hE, not_le.mpr hlt, getEntry_setEntry_self]
    | some b =>
        simp only [accumulated, hE, Option.map_some', Option.getD_some]
          at hlt ⊢
        by_cases h0 : b.data = []
        · rw [h0] at hlt ⊢
          simp only [List.nil_append] at hlt ⊢
          simp [handle_chunk, hE, h0, not_le.mpr hlt, getEntry_setEntry_self]
        · have hlt' : b.data.length + chunk'.payload.length < cfg.threshold_bytes := by
            simpa using hlt
          simp [handle_chunk, hE, h0, not_le.mpr hlt', getEntry_setEntry_self]
  · intro sid b hb hbne
    have h12 := flush_buffer_calls_and_clears tr st sid b none now hbne
    simp [force_flush, hb, hbne, h12.2]

/-- Witness for `threshold_crossing_single_transcribe`: a 4-byte fragment
reaching the 4-byte threshold exactly produces one Transcribe call over all
four bytes and an empty buffer. -/
theorem threshold_crossing_single_transcribe_witness :
    (handle_chunk ⟨1, 2⟩ (fun _ => some "t") ProcState.empty
        ⟨"s", [1, 2, 3, 4], 9⟩ 9).transcribeCalls = [[1, 2, 3, 4]] ∧
    (getEntry (handle_chunk ⟨1, 2⟩ (fun _ => some "t") ProcState.empty
        ⟨"s", [1, 2, 3, 4], 9⟩ 9).buffers "s").map SessionBuffer.data
      = some [] := by
  have h := (threshold_crossing_single_transcribe ⟨1, 2⟩ (fun _ => some "t")
    ProcState.empty ⟨"s", [1, 2, 3, 4], 9⟩ 9 (by decide) (by decide)).1
  exact ⟨h.1.trans (by decide), h.2⟩

/-! ## C7: the context assembler -/

set_option maxRecDepth 10000 in
/-- C7 is false as stated at `recentMinutes = 0`: `build` treats 0 as absent
and uses the 10-minute default window, so a transcript ending 300 s before
`now` is returned in `recent_transcripts` even though its `end_time` is below
the cutoff `now - 0*60` demanded by the claim's universal quantification. -/
theorem build_recent_zero_counterexample :
    (⟨1, "room1", 690, 700, "x", 700⟩ : TranscriptRecord) ∈
      (build 10 ⟨[⟨1, "room1", 690, 700, "x", 700⟩], [], 2, 1⟩ "room1"
        (some 0) 1000).recent_transcripts ∧
    ¬ ((1000 : ℚ) - ((0 : ℕ) * 60 : ℚ) ≤ (700 : ℚ)) := by
  with_unfolding_all decide

/-- C7 (amended to positive `recentMinutes`, the case `0` being rerouted to
the default window by the code): `build` returns exactly the session's
summary records oldest-first, exactly the session's transcripts with
`end_time ≥ now - recentMinutes*60` oldest-first, and `has_content` is true
iff at least one of the two lists is nonempty; `build` is a pure read — it
returns a package and leaves no way to modify the store. -/
theorem build_contract_pos_minutes (d : Nat) (st : Store) (sid : String)
    (m : Nat) (now : ℚ) (hm : m ≠ 0) :
    (∀ s, s ∈ (build d st sid (some m) now).global_summaries ↔
      s ∈ st.summaries ∧ s.session_id = sid) ∧
    List.Sorted byStartS (build d st sid (some m) now).global_summaries ∧
    (∀ t, t ∈ (build d st sid (some m) now).recent_transcripts ↔
      t ∈ st.transcripts ∧ t.session_id = sid ∧
        now - (m * 60 : ℚ) ≤ t.end_time) ∧
    List.Sorted byStartT (build d st sid (some m) now).recent_transcripts ∧
    ((build d st sid (some m) now).has_content = true ↔
      ((build d st sid (some m) now).global_summaries ≠ [] ∨
        (build d st sid (some m) now).recent_transcripts ≠ [])) := by
  have hb : build d st sid (some m) now =
      ⟨sid, fetch_all_summaries st sid,
        fetch_transcripts_since st sid (now - (m * 60 : ℚ))⟩ := by
    simp [build, hm]
  refine ⟨?_, ?_, ?_, ?_, ?_⟩ <;> rw [hb]
  · intro s
    exact mem_fetch_all_summaries st sid s
  · exact sorted_fetch_all_summaries st sid
  · intro t
    exact mem_fetch_transcripts_since st sid _ t
  · exact sorted_fetch_transcripts_since st sid _
  · simp [ContextPackage.has_content]

/-- Witness for `build_contract_pos_minutes`: the spec scenario — with one
transcript ending 30 s ago and one ending 3600 s ago, `recent_minutes = 1`
keeps the 30 s-old transcript and drops the 3600 s-old one. -/
theorem build_contract_pos_minutes_witness :
    (⟨1, "room1", 9940, 9970, "x", 9970⟩ : TranscriptRecord) ∈
      (build 10 ⟨[⟨2, "room1", 6300, 6400, "y", 6400⟩,
          ⟨1, "room1", 9940, 9970, "x", 9970⟩], [], 3, 1⟩ "room1"
        (some 1) 10000).recent_transcripts ∧
    (⟨2, "room1", 6300, 6400, "y", 6400⟩ : TranscriptRecord) ∉
      (build 10 ⟨[⟨2, "room1", 6300, 6400, "y", 6400⟩,
          ⟨1, "room1", 9940, 9970, "x", 9970⟩], [], 3, 1⟩ "room1"
        (some 1) 10000).recent_transcripts := by
  have h := build_contract_pos_minutes 10
    ⟨[⟨2, "room1", 6300, 6400, "y", 6400⟩,
      ⟨1, "room1", 9940, 9970, "x", 9970⟩], [], 3, 1⟩ "room1" 1 10000
    (by decide)
  constructor
  · exact (h.2.2.1 _).mpr ⟨by simp, rfl, by norm_num⟩
  · intro hmem
    have hc := ((h.2.2.1 _).mp hmem).2.2
    norm_num at hc

/-! ## C9: `end_time ≥ start_time` for every flushed transcript -/

theorem flush_buffer_buffers_eq (tr : List Nat → Option String)
    (st : ProcState) (session_id : String) (buffer : SessionBuffer)
    (end_time : Option ℚ) (now : ℚ) (hne : buffer.data ≠ []) :
    (flush_buffer tr st session_id buffer end_time now).buffers =
      setEntry st.buffers session_id ⟨[], finalTime end_time now⟩ := by
  cases htr : tr buffer.data <;> simp [flush_buffer, hne, htr]

theorem flush_buffer_getEntry_from (tr : List Nat → Option String)
    (st : ProcState) (session_id : String) (buffer : SessionBuffer)
    (end_time : Option ℚ) (now : ℚ) (sid' : String) (b' : SessionBuffer)
    (hget : getEntry (flush_buffer tr st session_id buffer end_time now).buffers
      sid' = some b') :
    getEntry st.buffers sid' = some b' ∨ b'.data = [] := by
  by_cases hne : buffer.data = []
  · left
    simpa [flush_buffer, hne] using hget
  · rw [flush_buffer_buffers_eq tr st session_id buffer end_time now hne] at hget
    by_cases hs : sid' = session_id
    · subst hs
      rw [getEntry_setEntry_self] at hget
      obtain rfl := Option.some.inj hget
      right
      rfl
    · left
      rwa [getEntry_setEntry_ne _ _ _ _ hs] at hget

theorem flush_buffer_store_transcripts (tr : List Nat → Option String)
    (st : ProcState) (session_id : String) (buffer : SessionBuffer)
    (end_time : Option ℚ) (now : ℚ) :
    (flush_buffer tr st session_id buffer end_time now).store.transcripts
        = st.store.transcripts ∨
    (buffer.data ≠ [] ∧ ∃ txt,
      (flush_buffer tr st session_id buffer end_time now).store.transcripts
        = st.store.transcripts ++
            [⟨st.store.nextTranscriptId, session_id, buffer.started_at,
              finalTime end_time now, txt, now⟩]) := by
  by_cases hne : buffer.data = []
  · left
    simp [flush_buffer, hne]
  · cases htr : tr buffer.data with
    | none =>
        left
        simp [flush_buffer, hne, htr]
    | some txt =>
        right
        exact ⟨hne, txt, by simp [flush_buffer, hne, htr, insert_transcript]⟩

theorem flush_buffer_records_ordered (tr : List Nat → Option String)
    (st : ProcState) (session_id : String) (buffer : SessionBuffer)
    (end_time : Option ℚ) (now : ℚ)
    (hok : buffer.data ≠ [] → buffer.started_at ≤ finalTime end_time now)
    (hrec : RecordsOrdered st) :
    RecordsOrdered (flush_buffer tr st session_id buffer end_time now) := by
  intro r hr
  rcases flush_buffer_store_transcripts tr st session_id buffer end_time now
    with h | ⟨hne, txt, h⟩
  · rw [h] at hr
    exact hrec r hr
  · rw [h] at hr
    rcases List.mem_append.mp hr with h1 | h1
    · exact hrec r h1
    · obtain rfl := List.mem_singleton.mp h1
      exact hok hne

theorem bufBound_flush_buffer (tr : List Nat → Option String)
    (st : ProcState) (session_id : String) (buffer : SessionBuffer)
    (end_time : Option ℚ) (now t : ℚ) (hbuf : BufBound st t) :
    BufBound (flush_buffer tr st session_id buffer end_time now) t := by
  intro sid' b' hget hne'
  rcases flush_buffer_getEntry_from tr st session_id buffer end_time now
    sid' b' hget with h | h
  · exact hbuf sid' b' h hne'
  · exact absurd h hne'

theorem bufBound_setEntry (st : ProcState) (sid : String) (b2 : SessionBuffer)
    (t : ℚ) (hbuf : BufBound st t) (hb2 : b2.data ≠ [] → b2.started_at ≤ t) :
    BufBound { st with buffers := setEntry st.buffers sid b2 } t := by
  intro sid' b' hget hne'
  have hget' : getEntry (setEntry st.buffers sid b2) sid' = some b' := hget
  by_cases hs : sid' = sid
  · subst hs
    rw [getEntry_setEntry_self] at hget'
    obtain rfl := Option.some.inj hget'
    exact hb2 hne'
  · rw [getEntry_setEntry_ne _ _ _ _ hs] at hget'
    exact hbuf sid' b' hget' hne'

theorem received_le_finalTime (received now : ℚ) (hw : received ≤ now) :
    received ≤ finalTime (some received) now := by
  unfold finalTime
  by_cases hz : received = 0
  · subst hz
    simpa using hw
  · simp [hz]

theorem handle_chunk_split (cfg : ProcConfig) (tr : List Nat → Option String)
    (st : ProcState) (chunk : AudioChunk) (now : ℚ) :
    ∃ b2 : SessionBuffer,
      (b2.started_at = chunk.received_at ∨
        (∃ b, getEntry st.buffers chunk.session_id = some b ∧ b.data ≠ [] ∧
          b2.started_at = b.started_at)) ∧
      handle_chunk cfg tr st chunk now =
        (if cfg.threshold_bytes ≤ b2.data.length then
          flush_buffer tr
            { st with buffers := setEntry st.buffers chunk.session_id b2 }
            chunk.session_id b2 (some chunk.received_at) now
        else { st with buffers := setEntry st.buffers chunk.session_id b2 }) := by
  cases hE : getEntry st.buffers chunk.session_id with
  | none =>
      refine ⟨⟨[] ++ chunk.payload, chunk.received_at⟩, Or.inl rfl, ?_⟩
      simp [handle_chunk, hE]
  | some b =>
      by_cases h0 : b.data = []
      · refine ⟨⟨b.data ++ chunk.payload, chunk.received_at⟩, Or.inl rfl, ?_⟩
        simp [handle_chunk, hE, h0]
      · refine ⟨⟨b.data ++ chunk.payload, b.started_at⟩, ?_, ?_⟩
        · exact Or.inr ⟨b, rfl, h0, rfl⟩
        · simp [handle_chunk, hE, h0]

theorem step_records_ordered (cfg : ProcConfig) (tr : List Nat → Option String)
    (st : ProcState) (e : Event) (hw : e.wellTimed)
    (hbuf : BufBound st e.time) (hrec : RecordsOrdered st) :
    RecordsOrdered (step cfg tr st e) := by
  cases e with
  | chunk c now =>
      obtain ⟨b2, hstart, heq⟩ := handle_chunk_split cfg tr st c now
      show RecordsOrdered (handle_chunk cfg tr st c now)
      rw [heq]
      have hrec1 : RecordsOrdered
          { st with buffers := setEntry st.buffers c.session_id b2 } := hrec
      by_cases hth : cfg.threshold_bytes ≤ b2.data.length
      · rw [if_pos hth]
        refine flush_buffer_records_ordered _ _ _ _ _ _ ?_ hrec1
        intro _
        rcases hstart with h | ⟨b, hEb, hbne, h⟩
        · rw [h]
          exact received_le_finalTime c.received_at now hw
        · rw [h]
          exact le_trans (hbuf _ _ hEb hbne)
            (received_le_finalTime c.received_at now hw)
      · rw [if_neg hth]
        exact hrec1
  | flush sid now =>
      show RecordsOrdered (force_flush tr st sid now)
      unfold force_flush
      cases hE : getEntry st.buffers sid with
      | none => exact hrec
      | some b =>
          show RecordsOrdered
            (if b.data = [] then st else flush_buffer tr st sid b none now)
          by_cases h0 : b.data = []
          · rw [if_pos h0]
            exact hrec
          · rw [if_neg h0]
            refine flush_buffer_records_ordered _ _ _ _ _ _ ?_ hrec
            intro _
            exact hbuf _ _ hE h0

theorem step_bufBound (cfg : ProcConfig) (tr : List Nat → Option String)
    (st : ProcState) (e : Event) (t : ℚ) (hle : e.time ≤ t)
    (hbuf : BufBound st t) : BufBound (step cfg tr st e) t := by
  cases e with
  | chunk c now =>
      obtain ⟨b2, hstart, heq⟩ := handle_chunk_split cfg tr st c now
      show BufBound (handle_chunk cfg tr st c now) t
      rw [heq]
      have hb2 : b2.data ≠ [] → b2.started_at ≤ t := by
        intro _
        rcases hstart with h | ⟨b, hEb, hbne, h⟩
        · rw [h]
          exact hle
        · rw [h]
          exact hbuf _ _ hEb hbne
      have hset := bufBound_setEntry st c.session_id b2 t hbuf hb2
      by_cases hth : cfg.threshold_bytes ≤ b2.data.length
      · rw [if_pos hth]
        exact bufBound_flush_buffer _ _ _ _ _ _ _ hset
      · rw [if_neg hth]
        exact hset
  | flush sid now =>
      show BufBound (force_flush tr st sid now) t
      unfold force_flush
      cases hE : getEntry st.buffers sid with
      | none => exact hbuf
      | some b =>
          show BufBound
            (if b.data = [] then st else flush_buffer tr st sid b none now) t
          by_cases h0 : b.data = []
          · rw [if_pos h0]
            exact hbuf
          · rw [if_neg h0]
            exact bufBound_flush_buffer _ _ _ _ _ _ _ hbuf

theorem run_records_ordered (cfg : ProcConfig) (tr : List Nat → Option String)
    (events : List Event) :
    ∀ st : ProcState, RecordsOrdered st →
      (∀ e ∈ events, BufBound st e.time) →
      List.Pairwise (fun a b => Event.time a ≤ Event.time b) events →
      (∀ e ∈ events, e.wellTimed) →
      RecordsOrdered (run cfg tr st events) := by
  induction events with
  | nil =>
      intro st hrec _ _ _
      exact hrec
  | cons e es ih =>
      intro st hrec hbound hpair hwt
      have hpair' := List.pairwise_cons.mp hpair
      have h1 : RecordsOrdered (step cfg tr st e) :=
        step_records_ordered cfg tr st e (hwt e (List.mem_cons_self e es))
          (hbound e (List.mem_cons_self e es)) hrec
      have h2 : ∀ e' ∈ es, BufBound (step cfg tr st e) e'.time := by
        intro e' he'
        exact step_bufBound cfg tr st e e'.time (hpair'.1 e' he')
          (hbound e' (List.mem_cons_of_mem e he'))
      exact ih (step cfg tr st e) h1 h2 hpair'.2
        (fun e' he' => hwt e' (List.mem_cons_of_mem e he'))

/-- C9: along any trace of chunk and force-flush events whose externally
visible timestamps (receipt times of chunks, clocks of force-flushes) are
non-decreasing and whose chunks are processed at or after their receipt
time, every transcript record persisted by the processor — starting from the
empty state — satisfies `end_time ≥ start_time`; moreover every record a
flush inserts carries `start_time` equal to the buffer's `started_at` stamp
(the receipt time of the first byte held) and `end_time` equal to the flush
timestamp. -/
theorem flush_transcripts_well_ordered (cfg : ProcConfig)
    (tr : List Nat → Option String) (events : List Event)
    (hmono : List.Pairwise (fun a b => Event.time a ≤ Event.time b) events)
    (hwt : ∀ e ∈ events, e.wellTimed) :
    (∀ r ∈ (run cfg tr ProcState.empty events).store.transcripts,
      r.start_time ≤ r.end_time) ∧
    (∀ (st : ProcState) (sid : String) (b : SessionBuffer) (txt : String)
        (end_time : Option ℚ) (now : ℚ),
      b.data ≠ [] → tr b.data = some txt →
      (flush_buffer tr st sid b end_time now).store.transcripts =
        st.store.transcripts ++
          [⟨st.store.nextTranscriptId, sid, b.started_at,
            finalTime end_time now, txt, now⟩]) := by
  constructor
  · refine run_records_ordered cfg tr events ProcState.empty ?_ ?_ hmono hwt
    · intro r hr
      simp [ProcState.empty, Store.empty] at hr
    · intro e _ sid b hget _
      simp [ProcState.empty, getEntry] at hget
  · intro st sid b txt end_time now hne htr
    simp [flush_buffer, hne, htr, insert_transcript]

/-- Witness for `flush_transcripts_well_ordered` on a two-chunk trace: a
flush of a buffer stamped at time 5 with flush clock 7 appends exactly one
record with `start_time = 5 ≤ end_time = 7`. -/
theorem flush_transcripts_well_ordered_witness :
    (flush_buffer (fun _ => some "t") ProcState.empty "s" ⟨[1, 2], 5⟩ none
        7).store.transcripts = [⟨1, "s", 5, 7, "t", 7⟩] := by
  have h := flush_transcripts_well_ordered ⟨1, 2⟩ (fun _ => some "t")
    [.chunk ⟨"s", [1, 2], 1⟩ 1, .chunk ⟨"s", [3, 4], 2⟩ 2]
    (by norm_num [List.pairwise_cons, Event.time])
    (by intro e he; fin_cases he <;> simp [Event.wellTimed])
  rw [h.2 ProcState.empty "s" ⟨[1, 2], 5⟩ "t" none 7 (by decide) rfl]
  rfl

end PopQuiz
